import Mathlib

/-!
# Verification of the streamlit/component-template repository

Part A embeds the community-directory validator (`directory/scripts/validate.py`,
documented in `directory/README.md` and the specification): a batch validator for
JSON ComponentListing documents with a schema checker, a URL/content policy
checker, a cross-document uniqueness checker and an aggregator.  The validator
script itself is not among the provided sources, so its checks are modelled from
the specification's words.

Part B embeds the click-counter logic of the component templates
(`templates/v2/template-reactless/my_component/frontend/src/index.ts`, the v2
React template and the v1 React template) and the v1 reactless render handler.
These are translated directly from the TypeScript sources.
-/

namespace Directory

/-- A JSON value, the shape of a parsed ComponentListing document. -/
inductive JValue where
  | null : JValue
  | bool (b : Bool) : JValue
  | int (n : Int) : JValue
  | str (s : String) : JValue
  | arr (xs : List JValue) : JValue
  | obj (kvs : List (String × JValue)) : JValue

/-- Keys of a JSON object (empty for non-objects). -/
def objKeys : JValue → List String
  | .obj kvs => kvs.map (·.1)
  | _ => []

/-- Look up a top-level field of a JSON object. -/
def getField (v : JValue) (k : String) : Option JValue :=
  match v with
  | .obj kvs => kvs.lookup k
  | _ => none

/-- Look up a nested field `parent.child`. -/
def getField2 (v : JValue) (parent child : String) : Option JValue :=
  match getField v parent with
  | some sub => getField sub child
  | none => none

/-- A top-level string field; `null` or a non-string value yields `none`. -/
def getStrField (v : JValue) (k : String) : Option String :=
  match getField v k with
  | some (.str s) => some s
  | _ => none

/-- A nested string field `parent.child`; `null` or non-string yields `none`. -/
def getStrField2 (v : JValue) (parent child : String) : Option String :=
  match getField2 v parent child with
  | some (.str s) => some s
  | _ => none

/-- A top-level integer field. -/
def getIntField (v : JValue) (k : String) : Option Int :=
  match getField v k with
  | some (.int n) => some n
  | _ => none

/-- Split a character list at the first occurrence of `c`:
`some (before, after)` when `c` occurs, `none` otherwise. -/
def splitAtFirst (c : Char) : List Char → Option (List Char × List Char)
  | [] => none
  | x :: xs =>
    if x = c then some ([], xs)
    else (splitAtFirst c xs).map (fun pq => (x :: pq.1, pq.2))

/-- Split a character list on every occurrence of `c` (never returns `[]`). -/
def splitAll (c : Char) : List Char → List (List Char)
  | [] => [[]]
  | x :: xs =>
    let r := splitAll c xs
    if x = c then [] :: r
    else
      match r with
      | [] => [[x]]
      | y :: ys => (x :: y) :: ys

/-- Modelled from the spec: the decomposed form of a URL as the missing
`validate.py` parses it — scheme, host, path segments, optional query string. -/
structure ParsedUrl where
  scheme : String
  host : String
  segments : List String
  query : Option String
  deriving DecidableEq, Repr

/-- Modelled from the spec: URL parsing for the missing `validate.py`.
A URL is `scheme://host/seg/…?query`; anything without `://` after the scheme,
or with an empty scheme or host, fails to parse.  Strings such as
`javascript:alert(1)` or `data:text/html,…` therefore fail to parse. -/
def parseUrl (s : String) : Option ParsedUrl :=
  match splitAtFirst ':' s.toList with
  | none => none
  | some (schemeCs, rest) =>
    match rest with
    | '/' :: '/' :: hostPath =>
      if schemeCs = [] then none
      else
        let bq : List Char × Option String :=
          match splitAtFirst '?' hostPath with
          | none => (hostPath, none)
          | some (b, q) => (b, some (String.mk q))
        match splitAll '/' bq.1 with
        | [] => none
        | host :: segs =>
          if host = [] then none
          else some ⟨String.mk schemeCs, String.mk host, segs.map String.mk, bq.2⟩
    | _ => none

/-- Modelled from the spec: a URL-valued field passes the scheme policy exactly
when it parses and its scheme is `https`. -/
def httpsOk (s : String) : Bool :=
  match parseUrl s with
  | some u => u.scheme == "https"
  | none => false

/-- Modelled from the spec: `links.github` must be exactly
`https://github.com/<owner>/<repo>` — https scheme, host `github.com`, exactly
two non-empty path segments, no query string. -/
def githubShapeOk (s : String) : Bool :=
  match parseUrl s with
  | some u =>
    u.scheme == "https" && u.host == "github.com" && u.query.isNone &&
      (match u.segments with
       | [owner, repo] => !owner.isEmpty && !repo.isEmpty
       | _ => false)
  | none => false

/-- Modelled from the spec: the fixed set of cloud-storage signing-parameter
names whose presence in an image URL's query string marks it signed/expiring. -/
def signingParamNames : List String :=
  ["X-Amz-Signature", "X-Amz-Algorithm", "X-Amz-Credential", "X-Amz-Expires",
   "X-Goog-Signature", "X-Goog-Expires", "Expires", "Signature"]

/-- Modelled from the spec: the deny-list of known proxy/caching image hosts. -/
def proxyDenyHosts : List String :=
  ["camo.githubusercontent.com"]

/-- The parameter names of a query string: the part of each `&`-separated
component before its first `=`. -/
def queryParamNames (q : String) : List String :=
  (splitAll '&' q.toList).map fun kv =>
    match splitAtFirst '=' kv with
    | some (k, _) => String.mk k
    | none => String.mk kv

/-- Modelled from the spec: a query string is a signing query when any of its
parameter names is one of the known signing-parameter names. -/
def signedQuery (q : String) : Bool :=
  (queryParamNames q).any fun p => signingParamNames.contains p

/-- Modelled from the spec: normalization of `links.github` for the
cross-document uniqueness check — case-insensitive comparison by lowercasing. -/
def normalizeRepo (s : String) : String := String.mk (s.toList.map Char.toLower)

/-- Modelled from the spec: one violation reported by the missing `validate.py`:
schema violations (unknown field, missing required field, wrong type, value out
of range, bad category), policy violations (bad URL scheme, bad `links.github`
shape, signed image, denied image host, oversized file), the fail-fast
`schemaVersion` violation, the parse failure, and the corpus-level duplicate. -/
inductive Violation where
  | malformed : Violation
  | badSchemaVersion (found : Option Int) : Violation
  | unknownField (path : String) : Violation
  | missingField (path : String) : Violation
  | wrongType (path : String) : Violation
  | fieldRange (path : String) : Violation
  | badCategory (c : String) : Violation
  | emptyCategories : Violation
  | badUrl (path : String) : Violation
  | badGithubShape : Violation
  | signedImage : Violation
  | deniedImageHost (host : String) : Violation
  | oversize (size : Nat) : Violation
  | duplicateRepo (normalized : String) : Violation
  deriving DecidableEq, Repr

/-- Modelled from the spec: the schema's declared top-level keys
(the starter template's fields). -/
def topAllowedKeys : List String :=
  ["schemaVersion", "title", "author", "description", "links", "media",
   "install", "governance", "categories"]

/-- Modelled from the spec: the schema's declared nested keys per
object-valued top-level field. -/
def nestedAllowedKeys : List (String × List String) :=
  [("author", ["github", "displayName"]),
   ("links", ["github", "pypi", "demo", "docs"]),
   ("media", ["image"]),
   ("install", ["pip"]),
   ("governance", ["enabled", "notes"])]

/-- The paths of all fields of a document lying outside the schema's declared
set: top-level keys not among `topAllowedKeys`, and keys of the declared nested
objects not among that object's declared keys. -/
def unknownPaths (v : JValue) : List String :=
  (objKeys v).filter (fun k => !(topAllowedKeys.contains k))
  ++ nestedAllowedKeys.flatMap fun pa =>
      match getField v pa.1 with
      | some sub =>
        ((objKeys sub).filter fun k => !(pa.2.contains k)).map fun k =>
          pa.1 ++ "." ++ k
      | none => []

/-- A field counts as present when it exists and is not `null` (the starter
template uses `null` for optional fields that are unset). -/
def isPresent : Option JValue → Bool
  | some .null => false
  | some _ => true
  | none => false

/-- Modelled from the spec: presence flags of the mandatory fields
(`schemaVersion` is handled by the fail-fast version gate). -/
def requiredFieldFlags (v : JValue) : List (String × Bool) :=
  [("title", isPresent (getField v "title")),
   ("author.github", isPresent (getField2 v "author" "github")),
   ("links.github", isPresent (getField2 v "links" "github")),
   ("install.pip", isPresent (getField2 v "install" "pip")),
   ("categories", isPresent (getField v "categories"))]

/-- Modelled from the spec: one `missingField` violation per absent
mandatory field. -/
def requiredViolations (v : JValue) : List Violation :=
  (requiredFieldFlags v).filterMap fun pb =>
    if pb.2 then none else some (.missingField pb.1)

/-- A string-valued (or absent/`null`) field, as the schema's string fields
require. -/
def isStrOrAbsent : Option JValue → Bool
  | none => true
  | some .null => true
  | some (.str _) => true
  | _ => false

/-- Modelled from the spec: per-field type checks for the string fields. -/
def typeViolations (v : JValue) : List Violation :=
  ([("title", getField v "title"),
    ("description", getField v "description"),
    ("author.github", getField2 v "author" "github"),
    ("links.github", getField2 v "links" "github"),
    ("links.pypi", getField2 v "links" "pypi"),
    ("links.demo", getField2 v "links" "demo"),
    ("links.docs", getField2 v "links" "docs"),
    ("media.image", getField2 v "media" "image"),
    ("install.pip", getField2 v "install" "pip")]).filterMap
    fun po => if isStrOrAbsent po.2 then none else some (.wrongType po.1)

/-- Length bounds for a string field. -/
def strLenOk (lo hi : Nat) (s : String) : Bool :=
  lo ≤ s.length && s.length ≤ hi

/-- Modelled from the spec: range checks — `title` length 1–80,
`description` (when present) length 1–280. -/
def rangeViolations (v : JValue) : List Violation :=
  (match getStrField v "title" with
   | some t => if strLenOk 1 80 t then [] else [.fieldRange "title"]
   | none => [])
  ++ (match getStrField v "description" with
      | some d => if strLenOk 1 280 d then [] else [.fieldRange "description"]
      | none => [])

/-- Modelled from the spec: the fixed category enumeration of
`directory/README.md`. -/
def allowedCategories : List String :=
  ["LLMs", "Widgets", "Charts", "Authentication", "Connections",
   "Images & video", "Audio", "Text", "Maps", "Dataframes", "Graphs",
   "Molecules & genes", "Code editors", "Page navigation", "Developer tools",
   "Integrations"]

/-- Modelled from the spec: `categories` must be a non-empty array of strings
drawn from the fixed enumeration. -/
def categoriesViolations (v : JValue) : List Violation :=
  match getField v "categories" with
  | some (.arr xs) =>
    (if xs.isEmpty then [.emptyCategories] else [])
    ++ xs.filterMap fun x =>
        match x with
        | .str c =>
          if allowedCategories.contains c then none else some (.badCategory c)
        | _ => some (.wrongType "categories")
  | some .null => []
  | some _ => [.wrongType "categories"]
  | none => []

/-- Modelled from the spec: the schema checker (§4.1) — structural
unknown-key check, required-field presence, per-field type and range checks,
and the enum-membership check for `categories`. -/
def schemaCheck (v : JValue) : List Violation :=
  (unknownPaths v).map .unknownField
  ++ requiredViolations v
  ++ typeViolations v
  ++ rangeViolations v
  ++ categoriesViolations v

/-- The URL-valued fields present on a document, with their paths:
`links.github`, `links.demo`, `links.docs`, `media.image`
(`links.pypi` is a bare package name, not a URL). -/
def urlFieldsOf (v : JValue) : List (String × String) :=
  (match getStrField2 v "links" "github" with
   | some s => [("links.github", s)] | none => [])
  ++ (match getStrField2 v "links" "demo" with
      | some s => [("links.demo", s)] | none => [])
  ++ (match getStrField2 v "links" "docs" with
      | some s => [("links.docs", s)] | none => [])
  ++ (match getStrField2 v "media" "image" with
      | some s => [("media.image", s)] | none => [])

/-- Modelled from the spec: the extra `media.image` stability policy — reject
proxy-hosted images and signed/expiring query strings. -/
def imageExtraViolations (s : String) : List Violation :=
  match parseUrl s with
  | some u =>
    (if proxyDenyHosts.contains u.host then [.deniedImageHost u.host] else [])
    ++ (match u.query with
        | some q => if signedQuery q then [.signedImage] else []
        | none => [])
  | none => []

/-- Modelled from the spec: the policy violations of one URL-valued field —
the https-only scheme check on every field, the exact repo shape on
`links.github`, and the image stability policy on `media.image`. -/
def fieldUrlViolations (ps : String × String) : List Violation :=
  (if httpsOk ps.2 then [] else [.badUrl ps.1])
  ++ (if ps.1 = "links.github" then
        (if githubShapeOk ps.2 then [] else [.badGithubShape])
      else [])
  ++ (if ps.1 = "media.image" then imageExtraViolations ps.2 else [])

/-- Modelled from the spec: the URL & content policy checker (§4.2) — scan
every URL-valued field present and collect its policy violations. -/
def urlPolicyCheck (v : JValue) : List Violation :=
  (urlFieldsOf v).flatMap fieldUrlViolations

/-- One file of the corpus: its path, its serialized byte size, and its parse
result (`none` when the file is not valid JSON). -/
structure DocFile where
  path : String
  size : Nat
  parsed : Option JValue

/-- Modelled from the spec: the file-size bound, 50 KB. -/
def maxDocSize : Nat := 50 * 1024

/-- Modelled from the spec: the per-document violations — a parse failure is a
document-level fatal violation; a `schemaVersion` other than the supported
version 1 fails fast, reporting only that violation; otherwise the size bound,
the schema checker and the URL policy checker all run and their violations are
collected together. -/
def docContentViolations (d : DocFile) : List Violation :=
  match d.parsed with
  | none => [.malformed]
  | some v =>
    if getIntField v "schemaVersion" = some 1 then
      (if maxDocSize < d.size then [.oversize d.size] else [])
      ++ schemaCheck v ++ urlPolicyCheck v
    else [.badSchemaVersion (getIntField v "schemaVersion")]

/-- The normalized `links.github` of a document that participates in the
cross-document uniqueness check: documents that fail to parse or fail the
fail-fast `schemaVersion` gate run no further checks and do not participate. -/
def eligibleGithub (d : DocFile) : Option String :=
  match d.parsed with
  | none => none
  | some v =>
    if getIntField v "schemaVersion" = some 1 then
      (getStrField2 v "links" "github").map normalizeRepo
    else none

/-- Modelled from the spec: the cross-document uniqueness checker (§4.3) —
normalize each document's `links.github`, and flag a document when its
normalized value occurs in the corpus more than once (the violation is
reported against every document of the offending group). -/
def dupViolations (corpus : List DocFile) (d : DocFile) : List Violation :=
  match eligibleGithub d with
  | none => []
  | some g =>
    if 2 ≤ ((corpus.filterMap eligibleGithub).count g) then
      [.duplicateRepo g]
    else []

/-- All violations the validator reports against one document of the corpus. -/
def docViolations (corpus : List DocFile) (d : DocFile) : List Violation :=
  docContentViolations d ++ dupViolations corpus d

/-- Modelled from the spec: the aggregator (§4.4) — run every check over every
document of the corpus, produce per-file diagnostics, and exit with code 0
exactly when no document has any violation. -/
def validate (corpus : List DocFile) : Nat × List (String × List Violation) :=
  let report := corpus.map fun d => (d.path, docViolations corpus d)
  (if report.all (fun r => r.2.isEmpty) then 0 else 1, report)

/-- A minimal valid starter document, following the starter template of
`directory/README.md` (used by concrete witnesses). -/
def starterDoc : JValue :=
  .obj [("schemaVersion", .int 1),
        ("title", .str "My Component"),
        ("author", .obj [("github", .str "someone"),
                         ("displayName", .str "Some One")]),
        ("description", .str "One sentence describing the component."),
        ("links", .obj [("github", .str "https://github.com/owner/repo"),
                        ("pypi", .null), ("demo", .null), ("docs", .null)]),
        ("media", .obj [("image", .null)]),
        ("install", .obj [("pip", .str "pip install my-component")]),
        ("governance", .obj [("enabled", .bool true), ("notes", .null)]),
        ("categories", .arr [.str "Widgets"])]

/-- A document whose `schemaVersion` is 2 (used by concrete witnesses). -/
def versionTwoDoc : JValue :=
  .obj [("schemaVersion", .int 2), ("title", .str "Future Component")]

/-- A document whose `links.github` has an extra path segment and an `http`
scheme (used by concrete witnesses). -/
def badGithubDoc : JValue :=
  .obj [("schemaVersion", .int 1),
        ("links", .obj [("github", .str "http://github.com/a/b/c")])]

/-- A document whose `media.image` is a signed S3 URL (used by concrete
witnesses). -/
def signedImageDoc : JValue :=
  .obj [("schemaVersion", .int 1),
        ("media", .obj [("image",
          .str "https://bucket.s3.amazonaws.com/img.png?X-Amz-Signature=abc&Expires=123")])]

/-- A small document pointing at a repo, mixed case (used by concrete
witnesses of the uniqueness check). -/
def repoDoc (path github : String) : DocFile :=
  ⟨path, 200, some (.obj [("schemaVersion", .int 1),
    ("links", .obj [("github", .str github)])])⟩

end Directory

namespace V2Reactless

/-!
Embedding of `templates/v2/template-reactless/my_component/frontend/src/index.ts`.

The component function runs on every render.  A module-level WeakMap
`instances` maps each `parentElement` to its `{ numClicks }` record; the click
listener is added, and the record initialized to 0, only when the map has no
entry for the element yet.  `handleClick` reads the current count from the map,
increments it, stores it back and calls `setStateValue("num_clicks", n)`.

Parent elements are modelled as natural numbers.  The world carries the WeakMap
(`instances`), the number of click listeners registered on each instance's
button (`listeners`) and, per instance, the log of values sent through
`setStateValue` (`sent`).
-/

/-- The world of the reactless v2 template: the `instances` WeakMap, the
registered click listeners per button, and the log of sent state values. -/
structure World where
  instances : Nat → Option Nat
  listeners : Nat → Nat
  sent : Nat → List Nat

/-- The empty world: no instance initialized, no listener, nothing sent. -/
def init : World := ⟨fun _ => none, fun _ => 0, fun _ => []⟩

/-- The click handler `handleClick` for `parentElement` `pid`: read the count from the WeakMap
(0 when absent), increment, store, and send it via
`setStateValue("num_clicks", n)`. -/
def handleClick (pid : Nat) (w : World) : World :=
  let n := (w.instances pid).getD 0 + 1
  { instances := fun p => if p = pid then some n else w.instances p,
    listeners := w.listeners,
    sent := fun p => if p = pid then w.sent p ++ [n] else w.sent p }

/-- One run of the component function on instance `pid`: when the WeakMap has
no entry yet, register the click listener and initialize the count to 0;
otherwise the guard leaves listeners and count untouched. -/
def render (pid : Nat) (w : World) : World :=
  if (w.instances pid).isSome then w
  else
    { instances := fun p => if p = pid then some 0 else w.instances p,
      listeners := fun p => if p = pid then w.listeners p + 1 else w.listeners p,
      sent := w.sent }

/-- Fire `handleClick` `k` times (once per registered listener). -/
def fireN (k : Nat) (pid : Nat) (w : World) : World :=
  match k with
  | 0 => w
  | k + 1 => fireN k pid (handleClick pid w)

/-- A user click on instance `pid`'s button: every registered listener fires. -/
def click (pid : Nat) (w : World) : World :=
  fireN (w.listeners pid) pid w

/-- The cleanup function returned by the component: unregister the listener
and drop the WeakMap entry. -/
def cleanup (pid : Nat) (w : World) : World :=
  { instances := fun p => if p = pid then none else w.instances p,
    listeners := fun p => if p = pid then w.listeners p - 1 else w.listeners p,
    sent := w.sent }

/-- An event of the render/click lifecycle of the claim: a re-render of an
instance, or a user click on its button. -/
inductive Ev where
  | render (pid : Nat) : Ev
  | click (pid : Nat) : Ev

/-- One event step. -/
def step (w : World) : Ev → World
  | .render pid => render pid w
  | .click pid => click pid w

/-- Run an event sequence from a world. -/
def runFrom (w : World) (evts : List Ev) : World := evts.foldl step w

/-- Run an event sequence from the empty world. -/
def run (evts : List Ev) : World := runFrom init evts

/-- The counter of instance `pid` (0 when uninitialized). -/
def counterOf (w : World) (pid : Nat) : Nat := (w.instances pid).getD 0

/-- The clicks on `pid` that land after its first render (`inited` is whether
`pid` is already initialized): clicks on an uninitialized instance have no
registered listener and count for nothing. -/
def effectiveClicks (pid : Nat) : Bool → List Ev → Nat
  | _, [] => 0
  | inited, .render p :: rest =>
    effectiveClicks pid (inited || p == pid) rest
  | inited, .click p :: rest =>
    (if inited && p == pid then 1 else 0) + effectiveClicks pid inited rest

/-- The reachable-world invariant for one instance: either untouched, or
initialized with exactly one listener and a sent log of `[1, …, k]`. -/
def Inv (w : World) (pid : Nat) : Prop :=
  (w.instances pid = none ∧ w.listeners pid = 0 ∧ w.sent pid = []) ∨
  (∃ k, w.instances pid = some k ∧ w.listeners pid = 1 ∧
    w.sent pid = List.range' 1 k)

end V2Reactless

namespace V2React

/-!
Embedding of the v2 React template's `MyComponent` (`onClicked`,
`useState(0)`): the click handler computes `newNumClicks = numClicks + 1`,
stores it with `setNumClicks`, and sends it with
`setStateValue("num_clicks", newNumClicks)`.  The component state is the pair
(counter, log of values sent).
-/

/-- The click handler `onClicked` of the v2 React template. -/
def onClicked : Nat × List Nat → Nat × List Nat
  | (numClicks, sent) => (numClicks + 1, sent ++ [numClicks + 1])

/-- The initial hook state: `useState(0)` and an empty sent log. -/
def initialState : Nat × List Nat := (0, [])

/-- The state after `n` clicks. -/
def clicks (n : Nat) : Nat × List Nat := onClicked^[n] initialState

end V2React

namespace V1React

/-!
Embedding of the v1 React template's `MyComponent` (`onClicked`,
`useState(0)`): the click handler computes `newNumClicks = numClicks + 1`,
stores it with `setNumClicks`, and sends it with
`Streamlit.setComponentValue(newNumClicks)`.
-/

/-- The click handler `onClicked` of the v1 React template. -/
def onClicked : Nat × List Nat → Nat × List Nat
  | (numClicks, sent) => (numClicks + 1, sent ++ [numClicks + 1])

/-- The initial hook state: `useState(0)` and an empty sent log. -/
def initialState : Nat × List Nat := (0, [])

/-- The state after `n` clicks. -/
def clicks (n : Nat) : Nat × List Nat := onClicked^[n] initialState

end V1React

namespace V1Reactless

/-!
Embedding of the v1 reactless template's render handler (`onRender`): on every
render event it optionally restyles the button's border and outline (only when
the event's data carries a theme object), then sets `button.disabled` from
`data.disabled` and rewrites the text node.
-/

/-- The render event data relevant to `onRender`: the optional theme object
(only its presence matters to this handler), the disabled flag, and the
`name` argument. -/
structure RenderData where
  theme : Option Unit
  disabled : Bool
  name : String

/-- The DOM state `onRender` touches: the button's border, outline and
disabled properties, the text node, and the `isFocused` module variable the
styling reads. -/
structure Dom where
  border : String
  outline : String
  disabled : Bool
  text : String
  isFocused : Bool

/-- The border styling string computed inside the theme branch. -/
def borderStyling (isFocused : Bool) : String :=
  "1px solid var(" ++ (if isFocused then "--primary-color" else "gray") ++ ")"

/-- The render handler `onRender`: restyle border and outline only when `data.theme` is present,
then set `disabled` and the greeting text. -/
def onRender (data : RenderData) (dom : Dom) : Dom :=
  let dom1 :=
    if data.theme.isSome then
      let b := borderStyling dom.isFocused
      { dom with border := b, outline := b }
    else dom
  { dom1 with
    disabled := data.disabled,
    text := "Hello, " ++ data.name ++ "! " ++ String.mk [Char.ofNat 160] }

end V1Reactless

/-! ## Theorems -/

/-- The exit code of the aggregator is 0 exactly when every report entry has an
empty violation list. -/
theorem Directory.validate_exit_iff (corpus : List Directory.DocFile) :
    (Directory.validate corpus).1 = 0 ↔
      ∀ p ∈ (Directory.validate corpus).2, p.2 = [] := by
  unfold Directory.validate
  simp only [List.all_eq_true, List.isEmpty_iff]
  split
  next h => exact ⟨fun _ => h, fun _ => rfl⟩
  next h => exact ⟨fun h01 => absurd h01 one_ne_zero, fun hall => absurd hall h⟩

/-- C1: the aggregator's report has one entry per document of the corpus, each
entry the collected violations of the document's own checks plus its
corpus-level duplicate check (so one document's failures never prevent another
from being checked), and the exit code is 0 iff no document has any
violation. -/
theorem aggregator_checks_every_document_and_exit_code
    (corpus : List Directory.DocFile) :
    (Directory.validate corpus).2
      = corpus.map (fun d => (d.path,
          Directory.docContentViolations d ++ Directory.dupViolations corpus d)) ∧
    ((Directory.validate corpus).1 = 0 ↔
      ∀ p ∈ (Directory.validate corpus).2, p.2 = []) :=
  ⟨rfl, Directory.validate_exit_iff corpus⟩

/-- C6: a document whose serialized size exceeds 50 KB is always rejected. -/
theorem oversize_document_rejected (corpus : List Directory.DocFile)
    (d : Directory.DocFile) (h : Directory.maxDocSize < d.size) :
    Directory.docViolations corpus d ≠ [] := by
  have hc : Directory.docContentViolations d ≠ [] := by
    unfold Directory.docContentViolations
    cases hp : d.parsed with
    | none => simp
    | some v =>
      by_cases hv : Directory.getIntField v "schemaVersion" = some 1
      · simp [hv, h]
      · simp [hv]
  unfold Directory.docViolations
  intro hcontra
  exact hc (List.append_eq_nil.mp hcontra).1

/-- C6 witness: a 60000-byte document built from the valid starter template is
rejected. -/
theorem oversize_document_rejected_witness :
    Directory.docViolations [⟨"big.json", 60000, some Directory.starterDoc⟩]
      ⟨"big.json", 60000, some Directory.starterDoc⟩ ≠ [] :=
  oversize_document_rejected _ _ (by decide)

/-- C7: a parsed document whose `schemaVersion` is not the supported integer 1
fails fast — its report is exactly the single `schemaVersion` violation. -/
theorem schema_version_fail_fast (corpus : List Directory.DocFile)
    (d : Directory.DocFile) (v : Directory.JValue) (hp : d.parsed = some v)
    (hv : Directory.getIntField v "schemaVersion" ≠ some 1) :
    Directory.docViolations corpus d
      = [Directory.Violation.badSchemaVersion
          (Directory.getIntField v "schemaVersion")] := by
  unfold Directory.docViolations Directory.docContentViolations
    Directory.dupViolations Directory.eligibleGithub
  rw [hp]
  simp [if_neg hv]

/-- C7 witness: a document with `schemaVersion` 2 reports exactly the
`schemaVersion` violation. -/
theorem schema_version_fail_fast_witness :
    Directory.docViolations [⟨"v2.json", 100, some Directory.versionTwoDoc⟩]
      ⟨"v2.json", 100, some Directory.versionTwoDoc⟩
      = [Directory.Violation.badSchemaVersion (some 2)] :=
  schema_version_fail_fast _ _ Directory.versionTwoDoc rfl (by decide)

/-- C10: every render sets the button's disabled property from the event data,
while border and outline are restyled only when the event carries a theme
object — with no theme they keep their previous values. -/
theorem onRender_disabled_every_render_theme_guarded
    (data : V1Reactless.RenderData) (dom : V1Reactless.Dom) :
    (V1Reactless.onRender data dom).disabled = data.disabled ∧
    (V1Reactless.onRender data dom).border
      = (if data.theme.isSome then V1Reactless.borderStyling dom.isFocused
         else dom.border) ∧
    (V1Reactless.onRender data dom).outline
      = (if data.theme.isSome then V1Reactless.borderStyling dom.isFocused
         else dom.outline) := by
  obtain ⟨theme, disabled, name⟩ := data
  cases theme <;> simp [V1Reactless.onRender]

/-- Members of the required-field check are `missingField` violations. -/
theorem Directory.mem_requiredViolations {v : Directory.JValue}
    {x : Directory.Violation} (h : x ∈ Directory.requiredViolations v) :
    ∃ p, x = Directory.Violation.missingField p := by
  unfold Directory.requiredViolations at h
  rcases List.mem_filterMap.mp h with ⟨pb, _, hpb⟩
  by_cases hb : pb.2 = true
  · rw [if_pos hb] at hpb; cases hpb
  · rw [if_neg hb] at hpb
    exact ⟨pb.1, (Option.some.inj hpb).symm⟩

/-- Members of the type check are `wrongType` violations. -/
theorem Directory.mem_typeViolations {v : Directory.JValue}
    {x : Directory.Violation} (h : x ∈ Directory.typeViolations v) :
    ∃ p, x = Directory.Violation.wrongType p := by
  unfold Directory.typeViolations at h
  rcases List.mem_filterMap.mp h with ⟨po, _, hpo⟩
  by_cases hb : Directory.isStrOrAbsent po.2 = true
  · rw [if_pos hb] at hpo; cases hpo
  · rw [if_neg hb] at hpo
    exact ⟨po.1, (Option.some.inj hpo).symm⟩

/-- Members of the range check are `fieldRange` violations. -/
theorem Directory.mem_rangeViolations {v : Directory.JValue}
    {x : Directory.Violation} (h : x ∈ Directory.rangeViolations v) :
    ∃ p, x = Directory.Violation.fieldRange p := by
  unfold Directory.rangeViolations at h
  rcases List.mem_append.mp h with h1 | h1 <;>
    [skip; skip] <;>
    · split at h1
      · split at h1
        · cases h1
        · exact ⟨_, List.mem_singleton.mp h1⟩
      · cases h1

/-- Members of the categories check are `emptyCategories`, `badCategory` or
`wrongType` violations. -/
theorem Directory.mem_categoriesViolations {v : Directory.JValue}
    {x : Directory.Violation} (h : x ∈ Directory.categoriesViolations v) :
    x = Directory.Violation.emptyCategories ∨
    (∃ c, x = Directory.Violation.badCategory c) ∨
    x = Directory.Violation.wrongType "categories" := by
  unfold Directory.categoriesViolations at h
  split at h
  · rcases List.mem_append.mp h with h1 | h1
    · split at h1
      · exact Or.inl (List.mem_singleton.mp h1)
      · cases h1
    · rcases List.mem_filterMap.mp h1 with ⟨y, _, hy⟩
      split at hy
      · split at hy
        · cases hy
        · exact Or.inr (Or.inl ⟨_, (Option.some.inj hy).symm⟩)
      · exact Or.inr (Or.inr (Option.some.inj hy).symm)
  · cases h
  · exact Or.inr (Or.inr (List.mem_singleton.mp h))
  · cases h

/-- C8: a field outside the schema's declared set yields an `unknownField`
violation naming its path, and a document all of whose fields are declared
incurs no `unknownField` violation at all. -/
theorem unknown_fields_flagged (v : Directory.JValue) :
    (∀ k ∈ Directory.unknownPaths v,
      Directory.Violation.unknownField k ∈ Directory.schemaCheck v) ∧
    (Directory.unknownPaths v = [] → ∀ k,
      Directory.Violation.unknownField k ∉ Directory.schemaCheck v) := by
  constructor
  · intro k hk
    unfold Directory.schemaCheck
    simp only [List.mem_append]
    exact Or.inl (Or.inl (Or.inl (Or.inl (List.mem_map_of_mem _ hk))))
  · intro h0 k hmem
    unfold Directory.schemaCheck at hmem
    rw [h0] at hmem
    simp only [List.map_nil, List.nil_append, List.mem_append] at hmem
    rcases hmem with ((h1 | h2) | h3) | h4
    · obtain ⟨p, hp⟩ := Directory.mem_requiredViolations h1
      cases hp
    · obtain ⟨p, hp⟩ := Directory.mem_typeViolations h2
      cases hp
    · obtain ⟨p, hp⟩ := Directory.mem_rangeViolations h3
      cases hp
    · rcases Directory.mem_categoriesViolations h4 with hp | ⟨c, hp⟩ | hp <;>
        cases hp

/-- A field's violations embed into the whole URL policy check. -/
theorem Directory.mem_urlPolicyCheck {v : Directory.JValue}
    {ps : String × String} {x : Directory.Violation}
    (h1 : ps ∈ Directory.urlFieldsOf v)
    (h2 : x ∈ Directory.fieldUrlViolations ps) :
    x ∈ Directory.urlPolicyCheck v :=
  List.mem_flatMap.mpr ⟨ps, h1, h2⟩

/-- A field with no policy violations passes the https-only scheme check. -/
theorem Directory.fieldUrl_nil_httpsOk {ps : String × String}
    (h : Directory.fieldUrlViolations ps = []) :
    Directory.httpsOk ps.2 = true := by
  unfold Directory.fieldUrlViolations at h
  rcases List.append_eq_nil.mp h with ⟨h1, _⟩
  rcases List.append_eq_nil.mp h1 with ⟨h2, _⟩
  by_cases hb : Directory.httpsOk ps.2 = true
  · exact hb
  · rw [if_neg hb] at h2; cases h2

/-- A field that fails the https-only scheme check contributes a `badUrl`
violation. -/
theorem Directory.badUrl_mem_fieldUrl {ps : String × String}
    (h : Directory.httpsOk ps.2 = false) :
    Directory.Violation.badUrl ps.1 ∈ Directory.fieldUrlViolations ps := by
  unfold Directory.fieldUrlViolations
  simp [h]

/-- C3: a document passed by the URL policy checker has only `https` URLs in
its URL-valued fields; any present URL field failing the https-only predicate
makes the checker reject; and any URL parsing with a `javascript`, `data` or
`file` scheme fails the https-only predicate, whichever field holds it. -/
theorem https_only_policy (v : Directory.JValue) :
    (Directory.urlPolicyCheck v = [] →
      ∀ ps ∈ Directory.urlFieldsOf v, Directory.httpsOk ps.2 = true) ∧
    (∀ ps ∈ Directory.urlFieldsOf v, Directory.httpsOk ps.2 = false →
      Directory.urlPolicyCheck v ≠ []) ∧
    (∀ (s : String) (u : Directory.ParsedUrl), Directory.parseUrl s = some u →
      (u.scheme = "javascript" ∨ u.scheme = "data" ∨ u.scheme = "file") →
      Directory.httpsOk s = false) := by
  refine ⟨?_, ?_, ?_⟩
  · intro h ps hps
    exact Directory.fieldUrl_nil_httpsOk
      (List.flatMap_eq_nil_iff.mp h ps hps)
  · intro ps hps hhttps hnil
    have hmem := Directory.mem_urlPolicyCheck hps
      (Directory.badUrl_mem_fieldUrl hhttps)
    rw [hnil] at hmem
    cases hmem
  · intro s u hu hscheme
    unfold Directory.httpsOk
    rw [hu]
    rcases hscheme with h | h | h <;> simp [h]

/-- C4: a present `links.github` that is not exactly of the shape
`https://github.com/<owner>/<repo>` draws a `badGithubShape` violation from
the URL policy checker. -/
theorem github_shape_rejected (v : Directory.JValue) (s : String)
    (hf : Directory.getStrField2 v "links" "github" = some s)
    (hshape : Directory.githubShapeOk s = false) :
    Directory.Violation.badGithubShape ∈ Directory.urlPolicyCheck v := by
  have hmem : ("links.github", s) ∈ Directory.urlFieldsOf v := by
    unfold Directory.urlFieldsOf
    simp [hf]
  refine Directory.mem_urlPolicyCheck hmem ?_
  unfold Directory.fieldUrlViolations
  simp [hshape]

/-- C4 witness: `http://github.com/a/b/c` (http scheme, three path segments)
is rejected. -/
theorem github_shape_rejected_witness :
    Directory.Violation.badGithubShape ∈
      Directory.urlPolicyCheck Directory.badGithubDoc :=
  github_shape_rejected Directory.badGithubDoc "http://github.com/a/b/c"
    (by decide) (by decide)

/-- C5: a present `media.image` whose query string carries a signing parameter
draws a `signedImage` violation, one hosted on a deny-listed proxy host draws a
`deniedImageHost` violation; concretely, the signed S3 URL of the spec is
rejected and the same URL without its query string is accepted. -/
theorem image_stability_policy (v : Directory.JValue) (s : String)
    (u : Directory.ParsedUrl)
    (hf : Directory.getStrField2 v "media" "image" = some s)
    (hu : Directory.parseUrl s = some u) :
    ((∃ q, u.query = some q ∧ Directory.signedQuery q = true) →
      Directory.Violation.signedImage ∈ Directory.urlPolicyCheck v) ∧
    (Directory.proxyDenyHosts.contains u.host = true →
      Directory.Violation.deniedImageHost u.host ∈ Directory.urlPolicyCheck v) ∧
    (Directory.fieldUrlViolations ("media.image",
        "https://bucket.s3.amazonaws.com/img.png?X-Amz-Signature=abc&Expires=123")
        ≠ [] ∧
     Directory.fieldUrlViolations ("media.image",
        "https://bucket.s3.amazonaws.com/img.png") = []) := by
  have hmem : ("media.image", s) ∈ Directory.urlFieldsOf v := by
    unfold Directory.urlFieldsOf
    simp [hf]
  refine ⟨?_, ?_, by decide, by decide⟩
  · rintro ⟨q, hq, hsq⟩
    refine Directory.mem_urlPolicyCheck hmem ?_
    unfold Directory.fieldUrlViolations Directory.imageExtraViolations
    rw [hu]
    simp [hq, hsq]
  · intro hhost
    refine Directory.mem_urlPolicyCheck hmem ?_
    unfold Directory.fieldUrlViolations Directory.imageExtraViolations
    rw [hu]
    simp [hhost]
    exact Or.inl (by simpa using hhost)

/-- C5 witness: the document whose `media.image` is the signed S3 URL of the
spec is rejected with a `signedImage` violation. -/
theorem image_stability_policy_witness :
    Directory.Violation.signedImage ∈
      Directory.urlPolicyCheck Directory.signedImageDoc :=
  (image_stability_policy Directory.signedImageDoc
      "https://bucket.s3.amazonaws.com/img.png?X-Amz-Signature=abc&Expires=123"
      ⟨"https", "bucket.s3.amazonaws.com", ["img.png"],
        some "X-Amz-Signature=abc&Expires=123"⟩
      (by decide) (by decide)).1
    ⟨"X-Amz-Signature=abc&Expires=123", rfl, by decide⟩

/-- Two distinct list members mapped by `f` to the same value `g` put at least
two copies of `g` into the filterMap image. -/
theorem Directory.two_le_count_filterMap {α β : Type} [BEq β] [LawfulBEq β]
    (f : α → Option β) (l : List α) (a b : α) (g : β)
    (ha : a ∈ l) (hb : b ∈ l) (hab : a ≠ b)
    (hfa : f a = some g) (hfb : f b = some g) :
    2 ≤ (l.filterMap f).count g := by
  rcases List.append_of_mem ha with ⟨s, t, rfl⟩
  have hb' : b ∈ s ∨ b ∈ t := by
    rcases List.mem_append.mp hb with h | h
    · exact Or.inl h
    · rcases List.mem_cons.mp h with h | h
      · exact absurd h.symm hab
      · exact Or.inr h
  rw [List.filterMap_append, List.filterMap_cons_some hfa, List.count_append,
    List.count_cons_self]
  rcases hb' with h | h
  · have : 0 < (s.filterMap f).count g :=
      List.count_pos_iff.mpr (List.mem_filterMap.mpr ⟨b, h, hfb⟩)
    omega
  · have : 0 < (t.filterMap f).count g :=
      List.count_pos_iff.mpr (List.mem_filterMap.mpr ⟨b, h, hfb⟩)
    omega

/-- When all list members mapped by `f` to `g` share one key and keys are
pairwise distinct, at most one copy of `g` lands in the filterMap image. -/
theorem Directory.count_filterMap_le_one {α β : Type} [BEq β] [LawfulBEq β]
    (f : α → Option β) (key : α → String) (l : List α) (g : β)
    (hpw : l.Pairwise (fun x y => key x ≠ key y))
    (huni : ∀ x ∈ l, ∀ y ∈ l, f x = some g → f y = some g → key x = key y) :
    (l.filterMap f).count g ≤ 1 := by
  induction l with
  | nil => simp
  | cons a l ih =>
    rcases List.pairwise_cons.mp hpw with ⟨hka, hpw'⟩
    have huni' : ∀ x ∈ l, ∀ y ∈ l,
        f x = some g → f y = some g → key x = key y := fun x hx y hy =>
      huni x (List.mem_cons_of_mem a hx) y (List.mem_cons_of_mem a hy)
    rw [List.filterMap_cons]
    cases hfa : f a with
    | none => exact ih hpw' huni'
    | some gb =>
      by_cases hg : gb = g
      · subst hg
        have hzero : (l.filterMap f).count gb = 0 := by
          rw [List.count_eq_zero]
          intro hmem
          rcases List.mem_filterMap.mp hmem with ⟨x, hx, hfx⟩
          exact hka x hx
            (huni a (List.mem_cons_self a l) x (List.mem_cons_of_mem a hx)
              hfa hfx)
        rw [List.count_cons_self, hzero]
      · rw [List.count_cons_of_ne (fun he => hg he.symm)]
        exact ih hpw' huni'

/-- C2 counterexample: in a three-document corpus where the first and third
share a normalized `links.github` and the second differs from both, the pair
(first, second) has differing normalized values and yet the checker flags the
first — refuting "if their normalized values differ the checker flags
neither". -/
theorem uniqueness_pairwise_counterexample :
    Directory.normalizeRepo "https://github.com/Foo/Bar"
        ≠ Directory.normalizeRepo "https://github.com/other/thing" ∧
    Directory.dupViolations
      [Directory.repoDoc "a.json" "https://github.com/Foo/Bar",
       Directory.repoDoc "b.json" "https://github.com/other/thing",
       Directory.repoDoc "c.json" "https://github.com/foo/bar"]
      (Directory.repoDoc "a.json" "https://github.com/Foo/Bar") ≠ [] := by
  decide

/-- C2 (amended): in a corpus of documents with pairwise-distinct paths, two
documents at distinct paths with equal normalized `links.github` are both
flagged by the uniqueness checker; and a document whose normalized
`links.github` differs from that of every other document is not flagged. -/
theorem uniqueness_checker_flags (corpus : List Directory.DocFile)
    (d1 d2 : Directory.DocFile) (g1 g2 : String)
    (hpw : corpus.Pairwise (fun x y => x.path ≠ y.path))
    (h1 : d1 ∈ corpus) (h2 : d2 ∈ corpus) (hne : d1.path ≠ d2.path)
    (hg1 : Directory.eligibleGithub d1 = some g1)
    (hg2 : Directory.eligibleGithub d2 = some g2) :
    (g1 = g2 →
      Directory.Violation.duplicateRepo g1 ∈ Directory.docViolations corpus d1 ∧
      Directory.Violation.duplicateRepo g2 ∈ Directory.docViolations corpus d2) ∧
    ((∀ d ∈ corpus, d.path ≠ d1.path → Directory.eligibleGithub d ≠ some g1) →
      Directory.dupViolations corpus d1 = []) := by
  have hd12 : d1 ≠ d2 := fun he => hne (he ▸ rfl)
  constructor
  · intro hgeq
    subst hgeq
    have hcount : 2 ≤ ((corpus.filterMap Directory.eligibleGithub).count g1) :=
      Directory.two_le_count_filterMap Directory.eligibleGithub corpus d1 d2 g1
        h1 h2 hd12 hg1 hg2
    constructor
    · unfold Directory.docViolations Directory.dupViolations
      rw [hg1]
      simp [hcount]
    · unfold Directory.docViolations Directory.dupViolations
      rw [hg2]
      simp [hcount]
  · intro huni
    unfold Directory.dupViolations
    rw [hg1]
    have hle : (corpus.filterMap Directory.eligibleGithub).count g1 ≤ 1 := by
      refine Directory.count_filterMap_le_one Directory.eligibleGithub
        (fun d => d.path) corpus g1 hpw ?_
      intro x hx y hy hfx hfy
      have hxpath : x.path = d1.path := by
        by_cases hp : x.path = d1.path
        · exact hp
        · exact absurd hfx (huni x hx hp)
      have hypath : y.path = d1.path := by
        by_cases hp : y.path = d1.path
        · exact hp
        · exact absurd hfy (huni y hy hp)
      show x.path = y.path
      rw [hxpath, hypath]
    have hnot : ¬ 2 ≤ (corpus.filterMap Directory.eligibleGithub).count g1 := by
      omega
    simp [hnot]

/-- C2 witness: two documents at distinct paths whose `links.github` differ
only in case are both flagged. -/
theorem uniqueness_checker_flags_witness :
    Directory.Violation.duplicateRepo "https://github.com/foo/bar" ∈
      Directory.docViolations
        [Directory.repoDoc "a.json" "https://github.com/Foo/Bar",
         Directory.repoDoc "b.json" "https://github.com/foo/bar"]
        (Directory.repoDoc "a.json" "https://github.com/Foo/Bar") :=
  ((uniqueness_checker_flags
      [Directory.repoDoc "a.json" "https://github.com/Foo/Bar",
       Directory.repoDoc "b.json" "https://github.com/foo/bar"]
      (Directory.repoDoc "a.json" "https://github.com/Foo/Bar")
      (Directory.repoDoc "b.json" "https://github.com/foo/bar")
      "https://github.com/foo/bar" "https://github.com/foo/bar"
      (by simp [List.pairwise_cons]; decide)
      (List.mem_cons_self _ _)
      (List.mem_cons_of_mem _ (List.mem_cons_self _ _))
      (by decide) (by decide) (by decide)).1 rfl).1

/-- Running `handleClick` on another instance leaves this instance's fields alone. -/
theorem V2Reactless.handleClick_other (p pid : Nat) (w : V2Reactless.World)
    (h : pid ≠ p) :
    (V2Reactless.handleClick p w).instances pid = w.instances pid ∧
    (V2Reactless.handleClick p w).listeners pid = w.listeners pid ∧
    (V2Reactless.handleClick p w).sent pid = w.sent pid := by
  unfold V2Reactless.handleClick
  simp [h]

/-- Running `fireN` on another instance leaves this instance's fields alone. -/
theorem V2Reactless.fireN_other (k p pid : Nat)
    (w : V2Reactless.World) (h : pid ≠ p) :
    (V2Reactless.fireN k p w).instances pid = w.instances pid ∧
    (V2Reactless.fireN k p w).listeners pid = w.listeners pid ∧
    (V2Reactless.fireN k p w).sent pid = w.sent pid := by
  induction k generalizing w with
  | zero => exact ⟨rfl, rfl, rfl⟩
  | succ k ih =>
    obtain ⟨h1, h2, h3⟩ := V2Reactless.handleClick_other p pid w h
    obtain ⟨i1, i2, i3⟩ := ih (V2Reactless.handleClick p w)
    exact ⟨i1.trans h1, i2.trans h2, i3.trans h3⟩

/-- A render step preserves the invariant, never changes the counter, and
marks exactly the rendered instance as initialized. -/
theorem V2Reactless.render_spec (p pid : Nat) (w : V2Reactless.World)
    (h : V2Reactless.Inv w pid) :
    V2Reactless.Inv (V2Reactless.render p w) pid ∧
    V2Reactless.counterOf (V2Reactless.render p w) pid
      = V2Reactless.counterOf w pid ∧
    ((V2Reactless.render p w).instances pid).isSome
      = ((w.instances pid).isSome || (p == pid)) := by
  unfold V2Reactless.render
  by_cases hp : (w.instances p).isSome
  · rw [if_pos hp]
    refine ⟨h, rfl, ?_⟩
    by_cases hpp : p = pid
    · subst hpp
      simp [hp]
    · simp [hpp]
  · rw [if_neg hp]
    by_cases hpp : p = pid
    · subst hpp
      rcases h with ⟨hn, hl, hs⟩ | ⟨k, hk, hl, hs⟩
      · refine ⟨Or.inr ⟨0, by simp, by simp [hl], by simp [hs]⟩, ?_, ?_⟩
        · simp [V2Reactless.counterOf, hn]
        · simp [hn]
      · rw [hk] at hp
        exact absurd rfl hp
    · have hne : pid ≠ p := Ne.symm hpp
      refine ⟨?_, ?_, ?_⟩
      · unfold V2Reactless.Inv
        simp only [hne, if_neg]
        simpa [hne] using h
      · simp [V2Reactless.counterOf, hne]
      · simp [hne, hpp]

/-- A click step preserves the invariant, increments the counter exactly when
the clicked instance is this one and initialized, and initializes nothing. -/
theorem V2Reactless.click_spec (p pid : Nat) (w : V2Reactless.World)
    (h : V2Reactless.Inv w pid) :
    V2Reactless.Inv (V2Reactless.click p w) pid ∧
    V2Reactless.counterOf (V2Reactless.click p w) pid
      = V2Reactless.counterOf w pid
        + (if (w.instances pid).isSome && (p == pid) then 1 else 0) ∧
    ((V2Reactless.click p w).instances pid).isSome
      = (w.instances pid).isSome := by
  by_cases hpp : p = pid
  · subst hpp
    rcases h with ⟨hn, hl, hs⟩ | ⟨k, hk, hl, hs⟩
    · unfold V2Reactless.click
      rw [hl]
      refine ⟨Or.inl ⟨hn, hl, hs⟩, ?_, rfl⟩
      simp [V2Reactless.fireN, hn]
    · unfold V2Reactless.click
      rw [hl]
      have h1 : V2Reactless.fireN 1 p w = V2Reactless.handleClick p w := rfl
      rw [h1]
      refine ⟨Or.inr ⟨k + 1, ?_, ?_, ?_⟩, ?_, ?_⟩
      · simp [V2Reactless.handleClick, hk]
      · simp [V2Reactless.handleClick, hl]
      · simp [V2Reactless.handleClick, hs, hk, List.range'_1_concat,
          Nat.add_comm]
      · simp [V2Reactless.counterOf, V2Reactless.handleClick, hk]
      · simp [V2Reactless.handleClick, hk]
  · have hne : pid ≠ p := Ne.symm hpp
    obtain ⟨f1, f2, f3⟩ :=
      V2Reactless.fireN_other (w.listeners p) p pid w hne
    have hc : V2Reactless.click p w = V2Reactless.fireN (w.listeners p) p w :=
      rfl
    rw [hc]
    refine ⟨?_, ?_, ?_⟩
    · unfold V2Reactless.Inv
      rw [f1, f2, f3]
      exact h
    · simp [V2Reactless.counterOf, f1, hpp]
    · rw [f1]

/-- Running the event list from an invariant world preserves the invariant
and adds exactly the effective clicks to the counter. -/
theorem V2Reactless.runFrom_spec (evts : List V2Reactless.Ev) (pid : Nat)
    (w : V2Reactless.World) (h : V2Reactless.Inv w pid) :
    V2Reactless.Inv (V2Reactless.runFrom w evts) pid ∧
    V2Reactless.counterOf (V2Reactless.runFrom w evts) pid
      = V2Reactless.counterOf w pid
        + V2Reactless.effectiveClicks pid (w.instances pid).isSome evts := by
  induction evts generalizing w with
  | nil => exact ⟨h, by simp [V2Reactless.runFrom, V2Reactless.effectiveClicks]⟩
  | cons e rest ih =>
    cases e with
    | render p =>
      obtain ⟨hi, hc, hs⟩ := V2Reactless.render_spec p pid w h
      obtain ⟨hi', hc'⟩ := ih (V2Reactless.render p w) hi
      have hrun : V2Reactless.runFrom w (.render p :: rest)
          = V2Reactless.runFrom (V2Reactless.render p w) rest := rfl
      rw [hrun]
      refine ⟨hi', ?_⟩
      rw [hc', hc, hs]
      rfl
    | click p =>
      obtain ⟨hi, hc, hs⟩ := V2Reactless.click_spec p pid w h
      obtain ⟨hi', hc'⟩ := ih (V2Reactless.click p w) hi
      have hrun : V2Reactless.runFrom w (.click p :: rest)
          = V2Reactless.runFrom (V2Reactless.click p w) rest := rfl
      rw [hrun]
      refine ⟨hi', ?_⟩
      rw [hc', hc, hs]
      have heff : V2Reactless.effectiveClicks pid (w.instances pid).isSome
          (.click p :: rest)
          = (if (w.instances pid).isSome && (p == pid) then 1 else 0)
            + V2Reactless.effectiveClicks pid (w.instances pid).isSome rest :=
        rfl
      rw [heff]
      omega

/-- An invariant world's sent log is exactly `[1, …, counter]` and its
listener count is at most one. -/
theorem V2Reactless.Inv_sent_listeners {w : V2Reactless.World} {pid : Nat}
    (h : V2Reactless.Inv w pid) :
    w.sent pid = List.range' 1 (V2Reactless.counterOf w pid) ∧
    w.listeners pid ≤ 1 := by
  rcases h with ⟨hn, hl, hs⟩ | ⟨k, hk, hl, hs⟩
  · rw [hs, hl]
    unfold V2Reactless.counterOf
    rw [hn]
    exact ⟨rfl, by omega⟩
  · unfold V2Reactless.counterOf
    rw [hk, hs, hl]
    exact ⟨rfl, Nat.le_refl 1⟩

/-- The v2 React template's counter after `n` clicks: value `n`, having sent
`1, …, n` in order. -/
theorem v2react_clicks_spec (n : Nat) :
    V2React.clicks n = (n, List.range' 1 n) := by
  induction n with
  | zero => rfl
  | succ n ih =>
    unfold V2React.clicks at ih ⊢
    rw [Function.iterate_succ_apply', ih]
    show (n + 1, List.range' 1 n ++ [n + 1]) = (n + 1, List.range' 1 (n + 1))
    rw [List.range'_1_concat, Nat.add_comm 1 n]

/-- The v1 React template's counter after `n` clicks: value `n`, having sent
`1, …, n` in order. -/
theorem v1react_clicks_spec (n : Nat) :
    V1React.clicks n = (n, List.range' 1 n) := by
  induction n with
  | zero => rfl
  | succ n ih =>
    unfold V1React.clicks at ih ⊢
    rw [Function.iterate_succ_apply', ih]
    show (n + 1, List.range' 1 n ++ [n + 1]) = (n + 1, List.range' 1 (n + 1))
    rw [List.range'_1_concat, Nat.add_comm 1 n]

/-- C9: in the v2 reactless template the counter of every instance equals its
effective click count (so it starts at 0), the values sent via
`setStateValue("num_clicks", ·)` are exactly `1, 2, …` — the i-th click sends
i — and re-renders never register a second listener; the v1 and v2 React
templates send exactly `i` on the i-th click likewise. -/
theorem click_counter_sends_click_index (evts : List V2Reactless.Ev)
    (pid n : Nat) :
    V2Reactless.counterOf (V2Reactless.run evts) pid
      = V2Reactless.effectiveClicks pid false evts ∧
    (V2Reactless.run evts).sent pid
      = List.range' 1 (V2Reactless.effectiveClicks pid false evts) ∧
    (V2Reactless.run evts).listeners pid ≤ 1 ∧
    V2React.clicks n = (n, List.range' 1 n) ∧
    V1React.clicks n = (n, List.range' 1 n) := by
  have hinit : V2Reactless.Inv V2Reactless.init pid := Or.inl ⟨rfl, rfl, rfl⟩
  obtain ⟨hi, hc⟩ := V2Reactless.runFrom_spec evts pid V2Reactless.init hinit
  obtain ⟨hsent, hlist⟩ := V2Reactless.Inv_sent_listeners hi
  have hcount : V2Reactless.counterOf (V2Reactless.run evts) pid
      = V2Reactless.effectiveClicks pid false evts := by
    have := hc
    simpa [V2Reactless.counterOf, V2Reactless.init, V2Reactless.run] using this
  refine ⟨hcount, ?_, hlist, v2react_clicks_spec n, v1react_clicks_spec n⟩
  rw [show V2Reactless.run evts = V2Reactless.runFrom V2Reactless.init evts
    from rfl]
  rw [hsent]
  rw [show V2Reactless.runFrom V2Reactless.init evts = V2Reactless.run evts
    from rfl]
  rw [hcount]
